import Mathlib

/-!
Verification of the video-analysis pipeline core: a shallow embedding of
`backend/app/services/analytics.py`, `backend/app/services/pipeline.py`,
`backend/app/services/logger.py` and `backend/app/models/job.py`.

Timestamps, window widths and sentiment scores are embedded as rationals
(the Python floats never overflow or round in the properties at stake);
Python dicts (insertion ordered) are embedded as association lists in
insertion order; `collections.Counter` over a stream of keys is the
association list holding each distinct key at its first occurrence,
mapped to its multiplicity; `Counter.most_common()` (CPython: a stable
sort of the items, descending by count) is a stable insertion sort.
Fallible stages return `Except String`, mirroring Python exceptions with
their message.
-/

namespace VIA

/-! ### Data model: `backend/app/schemas/results.py` -/

/-- `TranscriptSegment` (schemas/results.py). The source field `end` is a
Lean keyword and is embedded as `stop`. -/
structure TranscriptSegment where
  start : ℚ
  stop : ℚ
  text : String
  deriving DecidableEq, Repr

/-- `ObjectDetection` (schemas/results.py). -/
structure ObjectDetection where
  timestamp : ℚ
  label : String
  confidence : ℚ
  instance_id : Option Int
  deriving DecidableEq, Repr

/-- `ObjectFrequency` (schemas/results.py). -/
structure ObjectFrequency where
  label : String
  count : Nat
  deriving DecidableEq, Repr

/-- `CoOccurrenceEntry` (schemas/results.py). -/
structure CoOccurrenceEntry where
  labels : List String
  count : Nat
  deriving DecidableEq, Repr

/-- `SentimentPoint` (schemas/results.py). -/
structure SentimentPoint where
  timestamp : ℚ
  sentiment : ℚ
  deriving DecidableEq, Repr

/-- `TimelineEntry` (schemas/results.py); `objects` is a Python dict,
embedded as an association list in insertion order. -/
structure TimelineEntry where
  timestamp : ℚ
  transcript : Option String
  objects : List (String × Nat)
  deriving DecidableEq, Repr

/-- `AnalyticsBundle` (schemas/results.py). -/
structure AnalyticsBundle where
  object_frequency : List ObjectFrequency
  co_occurrence : List CoOccurrenceEntry
  sentiment_trend : List SentimentPoint
  deriving DecidableEq, Repr

/-- `PipelineResult` (schemas/results.py). -/
structure PipelineResult where
  transcript : List TranscriptSegment
  detections : List ObjectDetection
  timeline : List TimelineEntry
  analytics : AnalyticsBundle
  summary : String
  deriving DecidableEq, Repr

/-! ### `collections.Counter` and Python's stable `sorted` -/

/-- Fuel-driven body of `firstDedup`; the fuel always suffices when it
starts at the list's length, keeping the recursion structural. -/
def firstDedupFuel {α : Type} [DecidableEq α] : Nat → List α → List α
  | _, [] => []
  | 0, _ :: _ => []
  | n + 1, x :: xs => x :: firstDedupFuel n (xs.filter fun y => y ≠ x)

/-- The list of first occurrences of the elements of `l`, in order of first
occurrence: the key iteration order of an insertion-ordered Python dict
(hence of a `Counter`) fed the stream `l`. -/
def firstDedup {α : Type} [DecidableEq α] (l : List α) : List α :=
  firstDedupFuel l.length l

/-- `collections.Counter(l)`: each distinct key of `l` at its first
occurrence, mapped to its multiplicity in the whole of `l`. -/
def counterOfList {α : Type} [DecidableEq α] (l : List α) : List (α × Nat) :=
  (firstDedup l).map fun k => (k, l.count k)

/-- Lookup in a counter/dict embedded as an association list
(0 when the key is absent, like `Counter.__getitem__`). -/
def lookupCount {α : Type} [DecidableEq α] : List (α × Nat) → α → Nat
  | [], _ => 0
  | p :: ps, k => if p.1 = k then p.2 else lookupCount ps k

/-- One step of the stable insertion sort: insert `a` before the first
element `b` with `le a b` (so after every strictly-smaller-priority
element already placed). -/
def stableInsert {α : Type} (le : α → α → Bool) (a : α) : List α → List α
  | [] => [a]
  | b :: l => if le a b then a :: b :: l else b :: stableInsert le a l

/-- Stable sort with respect to the (total-preorder) comparison `le`:
the order Python's stable `sorted` produces. -/
def stableSort {α : Type} (le : α → α → Bool) : List α → List α
  | [] => []
  | b :: l => stableInsert le b (stableSort le l)

/-- `Counter.most_common()`: the counter items, stably sorted in
descending order of count (CPython sorts the insertion-ordered items
with a stable sort, descending by count). -/
def most_common {α : Type} (c : List (α × Nat)) : List (α × Nat) :=
  stableSort (fun a b => decide (b.2 ≤ a.2)) c

/-! ### Analytics engine: `backend/app/services/analytics.py` -/

/-- `build_timeline` (analytics.py, lines 18-40). -/
def build_timeline (transcript : List TranscriptSegment)
    (detections : List ObjectDetection) (window : ℚ) : List TimelineEntry :=
  transcript.map fun segment =>
    let start := segment.start - window / 2
    let stop := segment.stop + window / 2
    let window_detections := detections.filter fun detection =>
      decide (start ≤ detection.timestamp) && decide (detection.timestamp ≤ stop)
    { timestamp := segment.start
      transcript := some segment.text
      objects := counterOfList (window_detections.map fun det => det.label) }

/-- The generator expression `(det.label for det in detections)`: the
stream of labels of a detection list, in input order. -/
def labelsOf (detections : List ObjectDetection) : List String :=
  detections.map fun det => det.label

/-- `compute_object_frequency` (analytics.py, lines 43-45). -/
def compute_object_frequency (detections : List ObjectDetection) : List ObjectFrequency :=
  (most_common (counterOfList (labelsOf detections))).map fun p =>
    { label := p.1, count := p.2 }

/-- Python's string comparison `a <= b` (lexicographic by code point),
as a kernel-computable Boolean: `a ≤ b` on `String` is by definition
`¬ b < a`, and `<` compares the underlying character lists. -/
def strLeb (a b : String) : Bool :=
  !(decide (b.toList < a.toList))

/-- Python's `sorted(set(l))` for strings: the distinct elements of `l`
in ascending lexicographic order. -/
def pySortedSet (l : List String) : List String :=
  stableSort strLeb (firstDedup l)

/-- `itertools.combinations(l, 2)`: the ordered pairs `(l[i], l[j])`,
`i < j`, in enumeration order. -/
def combinations2 {α : Type} : List α → List (α × α)
  | [] => []
  | x :: xs => (xs.map fun y => (x, y)) ++ combinations2 xs

/-- The pairs one timeline entry contributes in `compute_co_occurrence`:
`combinations(sorted(set(labels with positive count)), 2)`. -/
def entryPairs (entry : TimelineEntry) : List (String × String) :=
  combinations2 (pySortedSet ((entry.objects.filter fun p => decide (0 < p.2)).map fun p => p.1))

/-- The stream of pairs `compute_co_occurrence` feeds its counter,
entry by entry. -/
def pairStream (timeline : List TimelineEntry) : List (String × String) :=
  (timeline.map entryPairs).flatten

/-- `compute_co_occurrence` (analytics.py, lines 48-54). -/
def compute_co_occurrence (timeline : List TimelineEntry) : List CoOccurrenceEntry :=
  (most_common (counterOfList (pairStream timeline))).map fun p =>
    { labels := [p.1.1, p.1.2], count := p.2 }

/-- `str.lower()` (ASCII range, which covers every keyword tested). -/
def pyLower (s : String) : String :=
  s.map Char.toLower

/-- `str.split()` with no argument: split on whitespace runs, dropping
empty pieces. -/
def pyWords (s : String) : List String :=
  (s.split fun c => c.isWhitespace).filter fun w => w ≠ ""

/-- The positive keyword set of `compute_sentiment`. -/
def positive_keywords : List String :=
  ["good", "great", "excellent", "happy", "success", "win"]

/-- The negative keyword set of `compute_sentiment`. -/
def negative_keywords : List String :=
  ["bad", "poor", "sad", "fail", "loss", "danger"]

/-- `compute_sentiment` (analytics.py, lines 57-71): `0.6` is embedded as
the rational `6/10` (the two float additions in the source are exact). -/
def compute_sentiment (transcript : List TranscriptSegment) : List SentimentPoint :=
  transcript.map fun segment =>
    let words := pyWords (pyLower segment.text)
    let score : ℚ :=
      (if words.any fun w => positive_keywords.contains w then 6/10 else 0)
        - (if words.any fun w => negative_keywords.contains w then 6/10 else 0)
    { timestamp := segment.start, sentiment := score }

/-- `build_analytics_bundle` (analytics.py, lines 74-85). The source line
`timeline = timeline or build_timeline(...)` treats both `None` and an
empty list as absent (Python falsiness). -/
def build_analytics_bundle (transcript : List TranscriptSegment)
    (detections : List ObjectDetection) (window : ℚ)
    (timeline : Option (List TimelineEntry)) : AnalyticsBundle :=
  let tl :=
    match timeline with
    | none => build_timeline transcript detections window
    | some t => if t = [] then build_timeline transcript detections window else t
  { object_frequency := compute_object_frequency detections
    co_occurrence := compute_co_occurrence tl
    sentiment_trend := compute_sentiment transcript }

/-! ### Job model: `backend/app/models/job.py` -/

/-- `JobStatus` (models/job.py). -/
inductive JobStatus where
  | pending
  | processing
  | completed
  | failed
  deriving DecidableEq, Repr

/-- `JobInputType` (models/job.py). -/
inductive JobInputType where
  | upload
  | youtube
  deriving DecidableEq, Repr

/-- `JobInputType.value` (the enum's string value). -/
def JobInputType.value : JobInputType → String
  | .upload => "upload"
  | .youtube => "youtube"

/-- `Job` (models/job.py). Timestamps are opaque ticks drawn from the
state's clock. -/
structure Job where
  id : String
  input_type : JobInputType
  source : String
  status : JobStatus
  created_at : Nat
  updated_at : Nat
  error_message : Option String
  result_path : Option String
  deriving DecidableEq, Repr

/-- `JobLog` (models/job.py). -/
structure JobLog where
  job_id : String
  created_at : Nat
  level : String
  message : String
  deriving DecidableEq, Repr

/-! ### Orchestrator state

The job store (database rows), the append-only log table, the result
directory of the filesystem, and a clock supplying `datetime.utcnow()`.
Every store call is treated as atomic and durable, as §4.4 of the spec
requires of the external Job Store collaborator. -/

/-- The world the orchestrator mutates: job rows keyed by id, log rows,
result files keyed by path, and the clock. -/
structure SysState where
  jobs : List (String × Job)
  logs : List JobLog
  files : List (String × PipelineResult)
  now : Nat
  deriving DecidableEq, Repr

/-- `session.get(Job, job_id)`. -/
def storeGet (s : SysState) (jobId : String) : Option Job :=
  (s.jobs.find? fun p => p.1 == jobId).map fun p => p.2

/-- The `session.get` + `if job:` mutate-in-transaction idiom: update the
row when present, do nothing when absent. -/
def storeUpdate (s : SysState) (jobId : String) (f : Job → Job) : SysState :=
  { s with jobs := s.jobs.map fun p => if p.1 == jobId then (p.1, f p.2) else p }

/-- `add_job_log` (services/logger.py, lines 9-11). -/
def add_job_log (jobId : String) (message : String) (level : String)
    (s : SysState) : SysState :=
  { s with
    logs := s.logs ++ [{ job_id := jobId, created_at := s.now, level := level, message := message }] }

/-- The stage collaborators behind `PipelineComponents` (pipeline.py,
lines 25-30): each call either returns a value or raises an exception
carrying a message. -/
structure PipelineComponents where
  extract : String → String → Except String String
  transcribe : String → Except String (List TranscriptSegment)
  detect : String → Except String (List ObjectDetection)
  summarise : List TranscriptSegment → List ObjectDetection → Except String String

/-- `settings.result_dir / f"{job_id}.json"`. -/
def result_path_for (jobId : String) : String :=
  "results/" ++ jobId ++ ".json"

/-- `settings.storage_root / "audio" / f"{job_id}.wav"`. -/
def audio_path_for (jobId : String) : String :=
  "storage/audio/" ++ jobId ++ ".wav"

/-- `VideoProcessingPipeline._run_pipeline` (pipeline.py, lines 103-133):
the guarded stage sequence; the first stage exception aborts the rest and
is returned as the error. Log rows written before the failing stage
remain (each `add_job_log` commits its own transaction). -/
def run_pipeline (c : PipelineComponents) (w : ℚ) (jobId : String)
    (s : SysState) : Except String PipelineResult × SysState :=
  match storeGet s jobId with
  | none => (Except.error ("Job " ++ jobId ++ " missing"), s)
  | some job =>
    let s := add_job_log jobId "Extracting audio track" "INFO" s
    match c.extract job.source (audio_path_for jobId) with
    | Except.error e => (Except.error e, s)
    | Except.ok audio_file =>
      let s := add_job_log jobId "Running speech transcription" "INFO" s
      match c.transcribe audio_file with
      | Except.error e => (Except.error e, s)
      | Except.ok transcript =>
        let s := add_job_log jobId "Running object detection" "INFO" s
        match c.detect job.source with
        | Except.error e => (Except.error e, s)
        | Except.ok detections =>
          let s := add_job_log jobId "Building analytics bundle" "INFO" s
          let timeline := build_timeline transcript detections w
          let analytics := build_analytics_bundle transcript detections w (some timeline)
          let s := add_job_log jobId "Generating summary" "INFO" s
          match c.summarise transcript detections with
          | Except.error e => (Except.error e, s)
          | Except.ok summary =>
            (Except.ok { transcript := transcript, detections := detections,
                         timeline := timeline, analytics := analytics,
                         summary := summary }, s)

/-- Lines 72-78 of `process`: mark the job `processing` and log the start.
Runs before the `try` block. -/
def markProcessing (jobId : String) (s : SysState) : SysState :=
  add_job_log jobId "Pipeline started" "INFO"
    (storeUpdate s jobId fun job => { job with status := JobStatus.processing, updated_at := s.now })

/-- Lines 80-101 of `process`: the `try`/`except` body. On success the
result artifact is written, then the job is marked `completed` with its
result path; on any exception the job is marked `failed` with the
exception's message and an error-level log row is appended. -/
def finishJob (c : PipelineComponents) (w : ℚ) (jobId : String)
    (s : SysState) : SysState :=
  match run_pipeline c w jobId s with
  | (Except.ok result, s1) =>
    let rp := result_path_for jobId
    let s2 := { s1 with files := s1.files ++ [(rp, result)] }
    let s3 := storeUpdate s2 jobId fun job =>
      { job with status := JobStatus.completed, result_path := some rp, updated_at := s2.now }
    add_job_log jobId "Pipeline completed successfully" "INFO" s3
  | (Except.error e, s1) =>
    let s2 := storeUpdate s1 jobId fun job =>
      { job with status := JobStatus.failed, error_message := some e, updated_at := s1.now }
    add_job_log jobId ("Pipeline failed: " ++ e) "ERROR" s2

/-- `VideoProcessingPipeline.process` (pipeline.py, lines 70-101). A
missing job raises `ValueError` at line 75, before the `try` block, so
that exception propagates to the caller; once the job is found the body
always returns normally. -/
def process (c : PipelineComponents) (w : ℚ) (jobId : String)
    (s : SysState) : Except String SysState :=
  match storeGet s jobId with
  | none => Except.error ("Job " ++ jobId ++ " not found")
  | some _ => Except.ok (finishJob c w jobId (markProcessing jobId s))

/-- `create_job` (pipeline.py, lines 136-143); the fresh `uuid4` id is a
parameter. -/
def create_job (input_type : JobInputType) (source : String) (jobId : String)
    (s : SysState) : Job × SysState :=
  let job : Job :=
    { id := jobId, input_type := input_type, source := source,
      status := JobStatus.pending, created_at := s.now, updated_at := s.now,
      error_message := none, result_path := none }
  let s1 : SysState := { s with jobs := s.jobs ++ [(jobId, job)] }
  (job, add_job_log jobId ("Job created for " ++ input_type.value) "INFO" s1)

/-! ### Derived notions used to state the claims -/

/-- The segment's lower-cased whitespace-token set meets the positive
keyword set. -/
def matchesPositive (segment : TranscriptSegment) : Bool :=
  (pyWords (pyLower segment.text)).any fun w => positive_keywords.contains w

/-- The segment's lower-cased whitespace-token set meets the negative
keyword set. -/
def matchesNegative (segment : TranscriptSegment) : Bool :=
  (pyWords (pyLower segment.text)).any fun w => negative_keywords.contains w

/-- Number of occurrences of `a` in `l`. -/
def countOcc {α : Type} [DecidableEq α] (l : List α) (a : α) : Nat :=
  l.count a

/-- Index of the first occurrence of `a` in `l` (length of `l` when absent). -/
def firstIdx {α : Type} [DecidableEq α] (l : List α) (a : α) : Nat :=
  l.indexOf a

/-- A label appears with positive count in a timeline entry's histogram. -/
def hasPositive (entry : TimelineEntry) (lab : String) : Bool :=
  entry.objects.any fun p => p.1 == lab && decide (0 < p.2)

/-- The two labels of a co-occurrence entry, as a pair. -/
def pairKey (e : CoOccurrenceEntry) : String × String :=
  (e.labels.getD 0 "", e.labels.getD 1 "")

/-- The job row visible after a `process` call that returned normally. -/
def finalJob (r : Except String SysState) (jobId : String) : Option Job :=
  match r with
  | Except.error _ => none
  | Except.ok s => storeGet s jobId

/-- The record-level invariant of §3 of the spec: `result_path` set iff
`completed`, `error_message` set iff `failed`. -/
def jobInvariant (j : Job) : Prop :=
  (j.result_path ≠ none ↔ j.status = JobStatus.completed) ∧
  (j.error_message ≠ none ↔ j.status = JobStatus.failed)

/-! ### Concrete fixtures for witnesses and counterexamples -/

/-- The spec §8 scenario transcript. -/
def T0 : List TranscriptSegment :=
  [{ start := 0, stop := 2, text := "it was a great day" }]

/-- The spec §8 scenario detections. -/
def D0 : List ObjectDetection :=
  [{ timestamp := 1, label := "dog", confidence := 9/10, instance_id := none }]

/-- A minimal transcript. -/
def Tmin : List TranscriptSegment :=
  [{ start := 0, stop := 2, text := "hi" }]

/-- Two co-timed detections with distinct labels. -/
def D2 : List ObjectDetection :=
  [{ timestamp := 1, label := "cat", confidence := 1, instance_id := none },
   { timestamp := 1, label := "dog", confidence := 1, instance_id := none }]

/-- A timeline entry unrelated to `Tmin`/`D2`. -/
def oddTimelineEntry : TimelineEntry :=
  { timestamp := 0, transcript := none, objects := [("ant", 1), ("bee", 1)] }

/-- A second unrelated timeline entry with three labels. -/
def oddTimelineEntry2 : TimelineEntry :=
  { timestamp := 1, transcript := none, objects := [("ant", 1), ("bee", 1), ("cow", 1)] }

/-- A two-entry timeline producing a tie among co-occurrence counts. -/
def TL2 : List TimelineEntry :=
  [oddTimelineEntry, oddTimelineEntry2]

/-- An empty world. -/
def emptyState : SysState :=
  { jobs := [], logs := [], files := [], now := 0 }

/-- Components whose four stages all succeed. -/
def okComponents : PipelineComponents :=
  { extract := fun _ _ => Except.ok "audio.wav"
    transcribe := fun _ => Except.ok Tmin
    detect := fun _ => Except.ok D2
    summarise := fun _ _ => Except.ok "summary" }

/-- Components whose extraction stage raises with the given message. -/
def failingComponents (msg : String) : PipelineComponents :=
  { extract := fun _ _ => Except.error msg
    transcribe := fun _ => Except.ok Tmin
    detect := fun _ => Except.ok D2
    summarise := fun _ _ => Except.ok "summary" }

/-- A freshly created job row, as `create_job` writes it. -/
def jobPending (jobId : String) : Job :=
  { id := jobId, input_type := JobInputType.upload, source := "uploads/video.mp4",
    status := JobStatus.pending, created_at := 0, updated_at := 0,
    error_message := none, result_path := none }

/-- A store holding one freshly created job `j1`. -/
def statePending : SysState :=
  { jobs := [("j1", jobPending "j1")], logs := [], files := [], now := 1 }

/-- A store holding job `j1` already in its terminal success state. -/
def stateCompleted : SysState :=
  { jobs := [("j1", { jobPending "j1" with
      status := JobStatus.completed, result_path := some (result_path_for "j1") })],
    logs := [], files := [(result_path_for "j1",
      { transcript := [], detections := [], timeline := [],
        analytics := { object_frequency := [], co_occurrence := [], sentiment_trend := [] },
        summary := "done" })], now := 2 }

/-- A store holding job `j1` already in its terminal failure state. -/
def stateFailed : SysState :=
  { jobs := [("j1", { jobPending "j1" with
      status := JobStatus.failed, error_message := some "previous failure" })],
    logs := [], files := [], now := 2 }

/-! ### Lemmas on the Counter embedding -/

theorem firstDedupFuel_irrel {α : Type} [DecidableEq α] :
    ∀ (n m : Nat) (l : List α), l.length ≤ n → l.length ≤ m →
      firstDedupFuel n l = firstDedupFuel m l
  | n, m, [], _, _ => by
    cases n <;> cases m <;> rfl
  | n + 1, m + 1, x :: xs, hn, hm => by
    rw [firstDedupFuel, firstDedupFuel]
    have hlen := List.length_filter_le (fun y => decide (y ≠ x)) xs
    rw [firstDedupFuel_irrel n m (xs.filter fun y => y ≠ x)
      (le_trans hlen (Nat.succ_le_succ_iff.mp hn))
      (le_trans hlen (Nat.succ_le_succ_iff.mp hm))]

theorem firstDedup_nil {α : Type} [DecidableEq α] : firstDedup ([] : List α) = [] := rfl

theorem firstDedup_cons {α : Type} [DecidableEq α] (x : α) (xs : List α) :
    firstDedup (x :: xs) = x :: firstDedup (xs.filter fun y => y ≠ x) := by
  rw [firstDedup, firstDedup, List.length_cons, firstDedupFuel]
  have hlen := List.length_filter_le (fun y => decide (y ≠ x)) xs
  rw [firstDedupFuel_irrel xs.length (xs.filter fun y => y ≠ x).length
    (xs.filter fun y => y ≠ x) hlen le_rfl]

theorem mem_firstDedup_aux {α : Type} [DecidableEq α] :
    ∀ (n : Nat) (l : List α), l.length ≤ n → ∀ x, (x ∈ firstDedup l ↔ x ∈ l)
  | 0, l, hl, x => by
    have : l = [] := List.eq_nil_of_length_eq_zero (Nat.le_zero.mp hl)
    subst this
    simp [firstDedup_nil]
  | n + 1, [], _, x => by simp [firstDedup_nil]
  | n + 1, y :: ys, hl, x => by
    have hlen : (ys.filter fun z => z ≠ y).length ≤ n :=
      le_trans (List.length_filter_le _ ys) (Nat.succ_le_succ_iff.mp hl)
    have ih := mem_firstDedup_aux n (ys.filter fun z => z ≠ y) hlen x
    simp only [firstDedup_cons, List.mem_cons, ih, List.mem_filter, decide_eq_true_eq]
    constructor
    · rintro (rfl | ⟨h1, _⟩)
      · exact Or.inl rfl
      · exact Or.inr h1
    · rintro (rfl | h1)
      · exact Or.inl rfl
      · by_cases hxy : x = y
        · exact Or.inl hxy
        · exact Or.inr ⟨h1, hxy⟩

theorem mem_firstDedup {α : Type} [DecidableEq α] {x : α} {l : List α} :
    x ∈ firstDedup l ↔ x ∈ l :=
  mem_firstDedup_aux l.length l le_rfl x

/-- First occurrences keep their relative order through a `filter`, for
elements the filter keeps. -/
theorem indexOf_filter_lt {α : Type} [DecidableEq α] (p : α → Bool) :
    ∀ (l : List α) (a b : α), p a = true → p b = true →
      (l.filter p).indexOf a < (l.filter p).indexOf b → l.indexOf a < l.indexOf b
  | [], a, b, _, _, h => by simp at h
  | c :: l, a, b, ha, hb, h => by
    by_cases hc : p c = true
    · rw [List.filter_cons_of_pos hc] at h
      by_cases hac : a = c
      · subst hac
        have hba : b ≠ a := by
          intro hba
          subst hba
          exact lt_irrefl _ h
        rw [List.indexOf_cons_self] at *
        rw [List.indexOf_cons_ne _ (Ne.symm hba)]
        exact Nat.succ_pos _
      · by_cases hbc : b = c
        · subst hbc
          rw [List.indexOf_cons_self, List.indexOf_cons_ne _ (fun h' => hac h'.symm)] at h
          exact absurd h (Nat.not_lt_zero _)
        · rw [List.indexOf_cons_ne _ (fun h' => hac h'.symm),
            List.indexOf_cons_ne _ (fun h' => hbc h'.symm)] at h
          rw [List.indexOf_cons_ne _ (fun h' => hac h'.symm),
            List.indexOf_cons_ne _ (fun h' => hbc h'.symm)]
          exact Nat.succ_lt_succ (indexOf_filter_lt p l a b ha hb (Nat.succ_lt_succ_iff.mp h))
    · rw [List.filter_cons_of_neg (by simpa using hc)] at h
      have hac : a ≠ c := fun h' => hc (h' ▸ ha)
      have hbc : b ≠ c := fun h' => hc (h' ▸ hb)
      rw [List.indexOf_cons_ne _ (fun h' => hac h'.symm),
        List.indexOf_cons_ne _ (fun h' => hbc h'.symm)]
      exact Nat.succ_lt_succ (indexOf_filter_lt p l a b ha hb h)

/-- The first-occurrence list is ordered by position of first occurrence. -/
theorem firstDedup_pairwise_aux {α : Type} [DecidableEq α] :
    ∀ (n : Nat) (l : List α), l.length ≤ n →
      (firstDedup l).Pairwise fun a b => l.indexOf a < l.indexOf b
  | 0, l, hl => by
    have : l = [] := List.eq_nil_of_length_eq_zero (Nat.le_zero.mp hl)
    subst this
    simp [firstDedup_nil]
  | n + 1, [], _ => by simp [firstDedup_nil]
  | n + 1, y :: ys, hl => by
    have hlen : (ys.filter fun z => z ≠ y).length ≤ n :=
      le_trans (List.length_filter_le _ ys) (Nat.succ_le_succ_iff.mp hl)
    have ih := firstDedup_pairwise_aux n (ys.filter fun z => z ≠ y) hlen
    rw [firstDedup_cons]
    refine List.pairwise_cons.mpr ⟨?_, ?_⟩
    · intro b hb
      have hb' : b ∈ ys.filter fun z => z ≠ y := mem_firstDedup.mp hb
      have hbne : b ≠ y := by
        have := List.mem_filter.mp hb'
        simpa using this.2
      rw [List.indexOf_cons_self, List.indexOf_cons_ne _ (Ne.symm hbne)]
      exact Nat.succ_pos _
    · refine ih.imp_of_mem ?_
      intro a b hamem hbmem hab
      have ha' := List.mem_filter.mp (mem_firstDedup.mp hamem)
      have hb' := List.mem_filter.mp (mem_firstDedup.mp hbmem)
      have hane : a ≠ y := by simpa using ha'.2
      have hbne : b ≠ y := by simpa using hb'.2
      have : ys.indexOf a < ys.indexOf b :=
        indexOf_filter_lt _ ys a b (by simpa using hane) (by simpa using hbne) hab
      rw [List.indexOf_cons_ne _ (Ne.symm hane), List.indexOf_cons_ne _ (Ne.symm hbne)]
      exact Nat.succ_lt_succ this

theorem firstDedup_pairwise {α : Type} [DecidableEq α] (l : List α) :
    (firstDedup l).Pairwise fun a b => l.indexOf a < l.indexOf b :=
  firstDedup_pairwise_aux l.length l le_rfl

theorem firstDedup_nodup {α : Type} [DecidableEq α] (l : List α) :
    (firstDedup l).Nodup :=
  (firstDedup_pairwise l).imp fun h heq => absurd (heq ▸ h) (lt_irrefl _)

theorem length_filter_ne_add_count {α : Type} [DecidableEq α] (y : α) (ys : List α) :
    ys.length = (ys.filter fun z => z ≠ y).length + ys.count y := by
  induction ys with
  | nil => simp
  | cons z ys ih =>
    by_cases h : z = y
    · subst h
      rw [List.filter_cons_of_neg (by simp), List.count_cons_self, List.length_cons]
      omega
    · rw [List.filter_cons_of_pos (by simpa using h), List.count_cons_of_ne (Ne.symm h),
        List.length_cons, List.length_cons]
      omega

/-- The multiplicities recorded over the first occurrences add up to the
length of the stream. -/
theorem sum_count_firstDedup_aux {α : Type} [DecidableEq α] :
    ∀ (n : Nat) (l : List α), l.length ≤ n →
      ((firstDedup l).map fun k => l.count k).sum = l.length
  | 0, l, hl => by
    have : l = [] := List.eq_nil_of_length_eq_zero (Nat.le_zero.mp hl)
    subst this
    simp [firstDedup_nil]
  | n + 1, [], _ => by simp [firstDedup_nil]
  | n + 1, y :: ys, hl => by
    have hlen : (ys.filter fun z => z ≠ y).length ≤ n :=
      le_trans (List.length_filter_le _ ys) (Nat.succ_le_succ_iff.mp hl)
    have ih := sum_count_firstDedup_aux n (ys.filter fun z => z ≠ y) hlen
    rw [firstDedup_cons, List.map_cons, List.sum_cons, List.count_cons_self]
    have hmap : ((firstDedup (ys.filter fun z => z ≠ y)).map fun k => (y :: ys).count k) =
        (firstDedup (ys.filter fun z => z ≠ y)).map fun k => (ys.filter fun z => z ≠ y).count k := by
      refine List.map_congr_left ?_
      intro k hk
      have hk' := List.mem_filter.mp (mem_firstDedup.mp hk)
      have hkne : k ≠ y := by simpa using hk'.2
      rw [List.count_cons_of_ne hkne, List.count_filter (by simpa using hkne)]
    rw [hmap, ih]
    have hsplit := length_filter_ne_add_count y ys
    simp only [List.length_cons]
    omega

theorem sum_count_firstDedup {α : Type} [DecidableEq α] (l : List α) :
    ((firstDedup l).map fun k => l.count k).sum = l.length :=
  sum_count_firstDedup_aux l.length l le_rfl

theorem lookupCount_keyed {α : Type} [DecidableEq α] (ks : List α) (f : α → Nat) (a : α) :
    lookupCount (ks.map fun k => (k, f k)) a = if a ∈ ks then f a else 0 := by
  induction ks with
  | nil => simp [lookupCount]
  | cons k ks ih =>
    rw [List.map_cons]
    by_cases hk : k = a
    · subst hk
      simp [lookupCount]
    · rw [show lookupCount ((k, f k) :: ks.map fun k => (k, f k)) a
          = if k = a then f k else lookupCount (ks.map fun k => (k, f k)) a from rfl]
      rw [if_neg hk, ih]
      by_cases ha : a ∈ ks
      · rw [if_pos ha, if_pos (List.mem_cons_of_mem _ ha)]
      · rw [if_neg ha, if_neg ?_]
        intro hmem
        rcases List.mem_cons.mp hmem with rfl | h
        · exact hk rfl
        · exact ha h

theorem countOcc_append {α : Type} [DecidableEq α] (l1 l2 : List α) (a : α) :
    countOcc (l1 ++ l2) a = countOcc l1 a + countOcc l2 a :=
  List.count_append a l1 l2

theorem countOcc_eq_one_of_mem {α : Type} [DecidableEq α] {l : List α} {a : α}
    (h : l.Nodup) (ha : a ∈ l) : countOcc l a = 1 :=
  List.count_eq_one_of_mem h ha

theorem countOcc_eq_zero_of_not_mem {α : Type} [DecidableEq α] {l : List α} {a : α}
    (h : a ∉ l) : countOcc l a = 0 :=
  List.count_eq_zero_of_not_mem h

theorem lookupCount_counterOfList {α : Type} [DecidableEq α] (l : List α) (a : α) :
    lookupCount (counterOfList l) a = l.count a := by
  rw [counterOfList, lookupCount_keyed]
  by_cases h : a ∈ firstDedup l
  · rw [if_pos h]
  · rw [if_neg h]
    exact (List.count_eq_zero.mpr fun hmem => h (mem_firstDedup.mpr hmem)).symm

theorem counterOfList_keys {α : Type} [DecidableEq α] (l : List α) :
    (counterOfList l).map Prod.fst = firstDedup l := by
  rw [counterOfList, List.map_map]
  exact List.map_id _

/-! ### Lemmas on the stable sort -/

theorem stableInsert_perm {α : Type} (le : α → α → Bool) (a : α) (l : List α) :
    List.Perm (stableInsert le a l) (a :: l) := by
  induction l with
  | nil => exact List.Perm.refl _
  | cons b l ih =>
    rw [stableInsert]
    by_cases h : le a b = true
    · rw [if_pos h]
    · rw [if_neg h]
      exact (ih.cons b).trans (List.Perm.swap a b l)

theorem stableSort_perm {α : Type} (le : α → α → Bool) (l : List α) :
    List.Perm (stableSort le l) l := by
  induction l with
  | nil => exact List.Perm.refl _
  | cons b l ih =>
    rw [stableSort]
    exact (stableInsert_perm le b (stableSort le l)).trans (ih.cons b)

theorem mem_stableInsert {α : Type} {le : α → α → Bool} {x a : α} {l : List α} :
    x ∈ stableInsert le a l ↔ x = a ∨ x ∈ l := by
  rw [(stableInsert_perm le a l).mem_iff, List.mem_cons]

/-- Inserting an element that preceded everything in the original stream
preserves the combined sortedness-plus-stability invariant. -/
theorem stableInsert_pairwise {α : Type} {r : α → α → Bool} {S : α → α → Prop}
    (htotal : ∀ a b, r a b = true ∨ r b a = true)
    (htrans : ∀ a b c, r a b = true → r b c = true → r a c = true)
    {a : α} {l : List α}
    (hl : l.Pairwise fun x y => r x y = true ∧ (r y x = true → S x y))
    (ha : ∀ y ∈ l, S a y) :
    (stableInsert r a l).Pairwise fun x y => r x y = true ∧ (r y x = true → S x y) := by
  induction l with
  | nil => simp [stableInsert]
  | cons b l ih =>
    rw [stableInsert]
    rcases List.pairwise_cons.mp hl with ⟨hb, hl'⟩
    by_cases h : r a b = true
    · rw [if_pos h]
      refine List.pairwise_cons.mpr ⟨?_, hl⟩
      intro z hz
      rcases List.mem_cons.mp hz with rfl | hz'
      · exact ⟨h, fun _ => ha _ (List.mem_cons_self _ _)⟩
      · exact ⟨htrans a b z h (hb z hz').1, fun _ => ha z (List.mem_cons_of_mem _ hz')⟩
    · rw [if_neg h]
      refine List.pairwise_cons.mpr
        ⟨?_, ih hl' fun y hy => ha y (List.mem_cons_of_mem _ hy)⟩
      intro z hz
      rcases mem_stableInsert.mp hz with hza | hz'
      · rw [hza]
        exact ⟨(htotal a b).resolve_left h, fun hab => absurd hab h⟩
      · exact hb z hz'

/-- The stable sort of a stream whose elements stand in stream order `S`
is sorted for `le`, and elements tied under `le` keep their stream order. -/
theorem stableSort_pairwise {α : Type} {r : α → α → Bool} {S : α → α → Prop}
    (htotal : ∀ a b, r a b = true ∨ r b a = true)
    (htrans : ∀ a b c, r a b = true → r b c = true → r a c = true)
    {l : List α} (hl : l.Pairwise S) :
    (stableSort r l).Pairwise fun x y => r x y = true ∧ (r y x = true → S x y) := by
  induction hl with
  | nil => simp [stableSort]
  | @cons b l hb hl' ih =>
    rw [stableSort]
    exact stableInsert_pairwise htotal htrans ih
      fun y hy => hb y ((stableSort_perm r l).mem_iff.mp hy)

theorem most_common_perm {α : Type} (c : List (α × Nat)) :
    List.Perm (most_common c) c :=
  stableSort_perm _ c

/-- `most_common` on a counter whose items stand in stream order `S`:
counts are non-increasing, and equal counts keep stream order. -/
theorem most_common_pairwise {α : Type} {S : (α × Nat) → (α × Nat) → Prop}
    {c : List (α × Nat)} (hc : c.Pairwise S) :
    (most_common c).Pairwise fun x y => y.2 ≤ x.2 ∧ (x.2 = y.2 → S x y) := by
  have h := stableSort_pairwise (r := fun a b : α × Nat => decide (b.2 ≤ a.2)) (S := S)
    (fun a b => by
      rcases Nat.le_total b.2 a.2 with h | h
      · exact Or.inl (decide_eq_true h)
      · exact Or.inr (decide_eq_true h))
    (fun a b c hab hbc => by
      exact decide_eq_true (le_trans (of_decide_eq_true hbc) (of_decide_eq_true hab)))
    hc
  refine h.imp ?_
  rintro x y ⟨h1, h2⟩
  refine ⟨of_decide_eq_true h1, fun heq => h2 (decide_eq_true (le_of_eq heq))⟩

/-! ### Lemmas on `sorted(set(...))` and `combinations(..., 2)` -/

theorem mem_pySortedSet {x : String} {l : List String} :
    x ∈ pySortedSet l ↔ x ∈ l := by
  rw [pySortedSet, (stableSort_perm _ _).mem_iff]
  exact mem_firstDedup

theorem strLeb_iff {a b : String} : strLeb a b = true ↔ a ≤ b := by
  simp only [strLeb, Bool.not_eq_true', decide_eq_false_iff_not]
  rw [← String.lt_iff_toList_lt]
  exact not_lt

theorem pySortedSet_pairwise_lt (l : List String) :
    (pySortedSet l).Pairwise (· < ·) := by
  have h := stableSort_pairwise (r := strLeb) (S := fun a b => a ≠ b)
    (fun a b => by
      rcases le_total a b with h | h
      · exact Or.inl (strLeb_iff.mpr h)
      · exact Or.inr (strLeb_iff.mpr h))
    (fun a b c hab hbc =>
      strLeb_iff.mpr (le_trans (strLeb_iff.mp hab) (strLeb_iff.mp hbc)))
    (firstDedup_nodup l)
  refine h.imp ?_
  rintro x y ⟨h1, h2⟩
  refine lt_of_le_of_ne (strLeb_iff.mp h1) ?_
  intro heq
  exact h2 (strLeb_iff.mpr (le_of_eq heq.symm)) heq

theorem combinations2_mem_mem {α : Type} :
    ∀ {l : List α} {a b : α}, (a, b) ∈ combinations2 l → a ∈ l ∧ b ∈ l := by
  intro l
  induction l with
  | nil => intro a b h; simp [combinations2] at h
  | cons x xs ih =>
    intro a b h
    rw [combinations2] at h
    rcases List.mem_append.mp h with h1 | h2
    · rcases List.mem_map.mp h1 with ⟨y, hy, heq⟩
      injection heq with e1 e2
      subst e1
      subst e2
      exact ⟨List.mem_cons_self _ _, List.mem_cons_of_mem _ hy⟩
    · rcases ih h2 with ⟨ha, hb⟩
      exact ⟨List.mem_cons_of_mem _ ha, List.mem_cons_of_mem _ hb⟩

theorem mem_combinations2 {α : Type} [LinearOrder α] {l : List α}
    (hl : l.Pairwise (· < ·)) {a b : α} :
    (a, b) ∈ combinations2 l ↔ a < b ∧ a ∈ l ∧ b ∈ l := by
  induction l with
  | nil => simp [combinations2]
  | cons x xs ih =>
    rcases List.pairwise_cons.mp hl with ⟨hx, hxs⟩
    rw [combinations2]
    constructor
    · intro h
      rcases List.mem_append.mp h with h1 | h2
      · rcases List.mem_map.mp h1 with ⟨y, hy, heq⟩
        injection heq with e1 e2
        subst e1
        subst e2
        exact ⟨hx _ hy, List.mem_cons_self _ _, List.mem_cons_of_mem _ hy⟩
      · rcases (ih hxs).mp h2 with ⟨hab, ha, hb⟩
        exact ⟨hab, List.mem_cons_of_mem _ ha, List.mem_cons_of_mem _ hb⟩
    · rintro ⟨hab, ha, hb⟩
      rcases List.mem_cons.mp ha with rfl | ha'
      · rcases List.mem_cons.mp hb with heq | hb'
        · rw [heq] at hab
          exact absurd hab (lt_irrefl _)
        · exact List.mem_append.mpr (Or.inl (List.mem_map.mpr ⟨b, hb', rfl⟩))
      · rcases List.mem_cons.mp hb with heq | hb'
        · exact absurd (hab.trans_le (le_of_eq heq)) (not_lt_of_ge (le_of_lt (hx a ha')))
        · exact List.mem_append.mpr (Or.inr ((ih hxs).mpr ⟨hab, ha', hb'⟩))

theorem combinations2_nodup {α : Type} [LinearOrder α] {l : List α}
    (hl : l.Pairwise (· < ·)) : (combinations2 l).Nodup := by
  induction l with
  | nil => simp [combinations2]
  | cons x xs ih =>
    rcases List.pairwise_cons.mp hl with ⟨hx, hxs⟩
    rw [combinations2]
    refine List.nodup_append.mpr ⟨?_, ih hxs, ?_⟩
    · refine List.Nodup.map ?_ (hxs.imp fun h => ne_of_lt h)
      intro y z hyz
      simpa using hyz
    · intro p hp1 hp2
      rcases List.mem_map.mp hp1 with ⟨y, _, rfl⟩
      have hxmem : x ∈ xs := (combinations2_mem_mem hp2).1
      exact absurd (hx x hxmem) (lt_irrefl x)

theorem hasPositive_iff {entry : TimelineEntry} {lab : String} :
    hasPositive entry lab = true ↔
      lab ∈ (entry.objects.filter fun p => decide (0 < p.2)).map fun p => p.1 := by
  simp only [hasPositive, List.any_eq_true, List.mem_map, List.mem_filter,
    Bool.and_eq_true, beq_iff_eq, decide_eq_true_eq]
  constructor
  · rintro ⟨p, hp, hlab, hpos⟩
    exact ⟨p, ⟨hp, by simpa using hpos⟩, hlab⟩
  · rintro ⟨p, ⟨hp, hpos⟩, hlab⟩
    exact ⟨p, hp, hlab, by simpa using hpos⟩

theorem mem_entryPairs {entry : TimelineEntry} {a b : String} :
    (a, b) ∈ entryPairs entry ↔
      a < b ∧ hasPositive entry a = true ∧ hasPositive entry b = true := by
  rw [entryPairs, mem_combinations2 (pySortedSet_pairwise_lt _)]
  rw [mem_pySortedSet, mem_pySortedSet, ← hasPositive_iff, ← hasPositive_iff]

theorem entryPairs_nodup (entry : TimelineEntry) : (entryPairs entry).Nodup :=
  combinations2_nodup (pySortedSet_pairwise_lt _)

theorem entryPairs_lt {entry : TimelineEntry} {a b : String}
    (h : (a, b) ∈ entryPairs entry) : a < b :=
  (mem_entryPairs.mp h).1

theorem pairStream_nil : pairStream [] = [] := rfl

theorem pairStream_cons (e : TimelineEntry) (tl : List TimelineEntry) :
    pairStream (e :: tl) = entryPairs e ++ pairStream tl := by
  rw [pairStream, List.map_cons, List.flatten_cons, pairStream]

theorem mem_pairStream {timeline : List TimelineEntry} {p : String × String} :
    p ∈ pairStream timeline ↔ ∃ entry ∈ timeline, p ∈ entryPairs entry := by
  rw [pairStream]
  simp only [List.mem_flatten, List.mem_map]
  constructor
  · rintro ⟨l, ⟨entry, hentry, rfl⟩, hp⟩
    exact ⟨entry, hentry, hp⟩
  · rintro ⟨entry, hentry, hp⟩
    exact ⟨entryPairs entry, ⟨entry, hentry, rfl⟩, hp⟩

/-- The multiplicity of a canonical pair in the pair stream counts the
timeline entries in which both labels appear with positive count. -/
theorem count_pairStream {a b : String} (hab : a < b) (timeline : List TimelineEntry) :
    countOcc (pairStream timeline) (a, b) =
      timeline.countP fun entry => hasPositive entry a && hasPositive entry b := by
  induction timeline with
  | nil => rfl
  | cons e tl ih =>
    rw [pairStream_cons, countOcc_append, List.countP_cons, ih]
    by_cases hmem : (a, b) ∈ entryPairs e
    · have hpos := mem_entryPairs.mp hmem
      have hcount : countOcc (entryPairs e) (a, b) = 1 :=
        countOcc_eq_one_of_mem (entryPairs_nodup e) hmem
      rw [hcount, if_pos (Bool.and_eq_true_iff.mpr ⟨hpos.2.1, hpos.2.2⟩)]
      omega
    · have hcount : countOcc (entryPairs e) (a, b) = 0 :=
        countOcc_eq_zero_of_not_mem hmem
      rw [hcount, if_neg ?_]
      · omega
      · intro hcond
        rcases Bool.and_eq_true_iff.mp hcond with ⟨h1, h2⟩
        exact hmem (mem_entryPairs.mpr ⟨hab, h1, h2⟩)

/-! ### Lemmas on the orchestrator state -/

theorem find_update_aux (l : List (String × Job)) (jobId : String) (f : Job → Job) :
    ((l.map fun p => if p.1 == jobId then (p.1, f p.2) else p).find? fun p => p.1 == jobId) =
      ((l.find? fun p => p.1 == jobId).map fun p => (p.1, f p.2)) := by
  induction l with
  | nil => rfl
  | cons p l ih =>
    rw [List.map_cons]
    by_cases h : (p.1 == jobId) = true
    · rw [if_pos h, List.find?_cons, List.find?_cons, h]
      rfl
    · rw [if_neg h]
      have h' : (p.1 == jobId) = false := by
        cases hval : (p.1 == jobId)
        · rfl
        · exact absurd hval h
      rw [List.find?_cons, List.find?_cons, h', ih]

theorem storeGet_storeUpdate (s : SysState) (jobId : String) (f : Job → Job) :
    storeGet (storeUpdate s jobId f) jobId = (storeGet s jobId).map f := by
  unfold storeGet storeUpdate
  rw [find_update_aux]
  cases s.jobs.find? fun p => p.1 == jobId <;> rfl

theorem storeGet_add_job_log (jobId m lv i : String) (s : SysState) :
    storeGet (add_job_log jobId m lv s) i = storeGet s i := rfl

theorem storeGet_markProcessing (jobId : String) (s : SysState) :
    storeGet (markProcessing jobId s) jobId =
      (storeGet s jobId).map fun job =>
        { job with status := JobStatus.processing, updated_at := s.now } := by
  unfold markProcessing
  rw [storeGet_add_job_log]
  exact storeGet_storeUpdate _ _ _

theorem markProcessing_files (jobId : String) (s : SysState) :
    (markProcessing jobId s).files = s.files := rfl

theorem storeUpdate_files (s : SysState) (jobId : String) (f : Job → Job) :
    (storeUpdate s jobId f).files = s.files := rfl

theorem add_job_log_files (jobId m lv : String) (s : SysState) :
    (add_job_log jobId m lv s).files = s.files := rfl

theorem add_job_log_logs (jobId m lv : String) (s : SysState) :
    (add_job_log jobId m lv s).logs =
      s.logs ++ [{ job_id := jobId, created_at := s.now, level := lv, message := m }] := rfl

theorem storeUpdate_logs (s : SysState) (jobId : String) (f : Job → Job) :
    (storeUpdate s jobId f).logs = s.logs := rfl

/-- `_run_pipeline` only appends log rows: it never touches the job rows
or the result files. -/
theorem run_pipeline_jobs (c : PipelineComponents) (w : ℚ) (jobId : String) (s : SysState) :
    (run_pipeline c w jobId s).2.jobs = s.jobs := by
  unfold run_pipeline
  repeat' split
  all_goals rfl

/-- `_run_pipeline` writes no result artifact. -/
theorem run_pipeline_files (c : PipelineComponents) (w : ℚ) (jobId : String) (s : SysState) :
    (run_pipeline c w jobId s).2.files = s.files := by
  unfold run_pipeline
  repeat' split
  all_goals rfl

theorem storeGet_of_jobs_eq {s1 s2 : SysState} (h : s1.jobs = s2.jobs) (i : String) :
    storeGet s1 i = storeGet s2 i := by
  unfold storeGet
  rw [h]

theorem run_pipeline_snd_jobs {c : PipelineComponents} {w : ℚ} {jobId : String}
    {s : SysState} {r : Except String PipelineResult} {s1 : SysState}
    (h : run_pipeline c w jobId s = (r, s1)) : s1.jobs = s.jobs := by
  have h2 := run_pipeline_jobs c w jobId s
  rw [h] at h2
  exact h2

theorem run_pipeline_snd_files {c : PipelineComponents} {w : ℚ} {jobId : String}
    {s : SysState} {r : Except String PipelineResult} {s1 : SysState}
    (h : run_pipeline c w jobId s = (r, s1)) : s1.files = s.files := by
  have h2 := run_pipeline_files c w jobId s
  rw [h] at h2
  exact h2

/-- The success arm of the `try` block, spelled out. -/
theorem finishJob_ok (c : PipelineComponents) (w : ℚ) (jobId : String)
    (s : SysState) (result : PipelineResult) (s1 : SysState)
    (hok : run_pipeline c w jobId s = (Except.ok result, s1)) :
    finishJob c w jobId s =
      add_job_log jobId "Pipeline completed successfully" "INFO"
        (storeUpdate { s1 with files := s1.files ++ [(result_path_for jobId, result)] }
          jobId fun job =>
            { job with
              status := JobStatus.completed,
              result_path := some (result_path_for jobId), updated_at := s1.now }) := by
  unfold finishJob
  rw [hok]

/-- The failure arm of the `try` block, spelled out. -/
theorem finishJob_error (c : PipelineComponents) (w : ℚ) (jobId : String)
    (s : SysState) (e : String) (s1 : SysState)
    (herr : run_pipeline c w jobId s = (Except.error e, s1)) :
    finishJob c w jobId s =
      add_job_log jobId ("Pipeline failed: " ++ e) "ERROR"
        (storeUpdate s1 jobId fun job =>
          { job with
            status := JobStatus.failed, error_message := some e,
            updated_at := s1.now }) := by
  unfold finishJob
  rw [herr]

/-- After the `try` block, the job found at entry is terminal: `completed`
with its result path on success, `failed` with the exception's message on
failure. -/
theorem storeGet_finishJob (c : PipelineComponents) (w : ℚ) (jobId : String)
    (s : SysState) (job : Job) (hget : storeGet s jobId = some job) :
    (∃ s1 result, run_pipeline c w jobId (markProcessing jobId s) = (Except.ok result, s1) ∧
       storeGet (finishJob c w jobId (markProcessing jobId s)) jobId =
         some { job with
                status := JobStatus.completed,
                result_path := some (result_path_for jobId), updated_at := s1.now }) ∨
    (∃ s1 e, run_pipeline c w jobId (markProcessing jobId s) = (Except.error e, s1) ∧
       storeGet (finishJob c w jobId (markProcessing jobId s)) jobId =
         some { job with
                status := JobStatus.failed,
                error_message := some e, updated_at := s1.now }) := by
  have hmid : storeGet (markProcessing jobId s) jobId =
      some { job with status := JobStatus.processing, updated_at := s.now } := by
    rw [storeGet_markProcessing, hget]
    rfl
  rcases hrun : run_pipeline c w jobId (markProcessing jobId s) with ⟨r, s1⟩
  cases r with
  | ok result =>
    refine Or.inl ⟨s1, result, rfl, ?_⟩
    rw [finishJob_ok c w jobId _ result s1 hrun, storeGet_add_job_log, storeGet_storeUpdate]
    rw [storeGet_of_jobs_eq
      (show ({ s1 with files := s1.files ++ [(result_path_for jobId, result)] } : SysState).jobs
        = s1.jobs from rfl) jobId]
    rw [storeGet_of_jobs_eq (run_pipeline_snd_jobs hrun) jobId, hmid]
    rfl
  | error e =>
    refine Or.inr ⟨s1, e, rfl, ?_⟩
    rw [finishJob_error c w jobId _ e s1 hrun, storeGet_add_job_log, storeGet_storeUpdate]
    rw [storeGet_of_jobs_eq (run_pipeline_snd_jobs hrun) jobId, hmid]
    rfl

/-! ### Claim theorems -/

/-- C2: `build_timeline` emits exactly one `TimelineEntry` per transcript
segment, in transcript order, anchored at the segment's start and
carrying the segment's text; its label histogram counts exactly the
detections whose timestamp lies in the closed interval
`[segment.start - window/2, segment.end + window/2]`; a segment with no
detections in range yields an entry with an empty histogram, not an
omitted entry. -/
theorem build_timeline_spec (transcript : List TranscriptSegment)
    (detections : List ObjectDetection) (window : ℚ) :
    (build_timeline transcript detections window).length = transcript.length ∧
    ∀ i : Nat, i < transcript.length →
      ∃ segment entry, transcript[i]? = some segment ∧
        (build_timeline transcript detections window)[i]? = some entry ∧
        entry.timestamp = segment.start ∧
        entry.transcript = some segment.text ∧
        (∀ lab : String, lookupCount entry.objects lab =
          (detections.filter fun det =>
            (decide (segment.start - window / 2 ≤ det.timestamp) &&
              decide (det.timestamp ≤ segment.stop + window / 2)) &&
            (det.label == lab)).length) ∧
        ((detections.filter fun det =>
            decide (segment.start - window / 2 ≤ det.timestamp) &&
            decide (det.timestamp ≤ segment.stop + window / 2)) = [] →
          entry.objects = []) := by
  constructor
  · rw [build_timeline]
    exact List.length_map _ _
  · intro i hi
    have hseg : transcript[i]? = some transcript[i] := List.getElem?_eq_getElem hi
    refine ⟨transcript[i],
      { timestamp := transcript[i].start
        transcript := some transcript[i].text
        objects := counterOfList ((detections.filter fun det =>
          decide (transcript[i].start - window / 2 ≤ det.timestamp) &&
          decide (det.timestamp ≤ transcript[i].stop + window / 2)).map fun det =>
            det.label) },
      hseg, ?_, rfl, rfl, ?_, ?_⟩
    · rw [build_timeline, List.getElem?_map, hseg]
      rfl
    · intro lab
      rw [lookupCount_counterOfList]
      rw [show (List.count lab ((detections.filter fun det =>
          decide (transcript[i].start - window / 2 ≤ det.timestamp) &&
          decide (det.timestamp ≤ transcript[i].stop + window / 2)).map fun det =>
            det.label)) = List.countP (fun x => x == lab)
          ((detections.filter fun det =>
          decide (transcript[i].start - window / 2 ≤ det.timestamp) &&
          decide (det.timestamp ≤ transcript[i].stop + window / 2)).map fun det =>
            det.label) from rfl]
      rw [List.countP_map, List.countP_filter, List.countP_eq_length_filter]
      refine congrArg List.length (List.filter_congr ?_)
      intro det _
      show ((det.label == lab) &&
          (decide (transcript[i].start - window / 2 ≤ det.timestamp) &&
            decide (det.timestamp ≤ transcript[i].stop + window / 2))) =
        ((decide (transcript[i].start - window / 2 ≤ det.timestamp) &&
            decide (det.timestamp ≤ transcript[i].stop + window / 2)) &&
          (det.label == lab))
      exact Bool.and_comm _ _
    · intro h
      show counterOfList _ = _
      rw [h, show List.map (fun det => det.label) ([] : List ObjectDetection) = [] from rfl,
        counterOfList, firstDedup_nil]
      rfl

/-- C6: `compute_sentiment` produces exactly one `SentimentPoint` per
segment, anchored at the segment's start, in transcript order; the score
is `0.6` when only the positive keyword set is met, `-0.6` when only the
negative keyword set is met, `0.0` when both or neither are met, and
always lies in `{-0.6, 0.0, 0.6}`. -/
theorem compute_sentiment_spec (transcript : List TranscriptSegment) :
    (compute_sentiment transcript).length = transcript.length ∧
    ∀ i : Nat, i < transcript.length →
      ∃ segment point, transcript[i]? = some segment ∧
        (compute_sentiment transcript)[i]? = some point ∧
        point.timestamp = segment.start ∧
        (matchesPositive segment = true → matchesNegative segment = false →
          point.sentiment = 6/10) ∧
        (matchesNegative segment = true → matchesPositive segment = false →
          point.sentiment = -(6/10)) ∧
        (matchesPositive segment = matchesNegative segment → point.sentiment = 0) ∧
        (point.sentiment = 6/10 ∨ point.sentiment = 0 ∨ point.sentiment = -(6/10)) := by
  constructor
  · rw [compute_sentiment]
    exact List.length_map _ _
  · intro i hi
    have hseg : transcript[i]? = some transcript[i] := List.getElem?_eq_getElem hi
    refine ⟨transcript[i],
      { timestamp := transcript[i].start
        sentiment :=
          (if matchesPositive transcript[i] = true then (6/10 : ℚ) else 0) -
          (if matchesNegative transcript[i] = true then (6/10 : ℚ) else 0) },
      hseg, ?_, rfl, ?_, ?_, ?_, ?_⟩
    · rw [compute_sentiment, List.getElem?_map, hseg]
      rfl
    · intro hp hn
      simp only [hp, hn]
      norm_num
    · intro hn hp
      simp only [hp, hn]
      norm_num
    · intro heq
      cases hp : matchesPositive transcript[i] <;> rw [hp] at heq <;>
        simp only [hp, ← heq] <;> norm_num
    · cases hp : matchesPositive transcript[i] <;>
        cases hn : matchesNegative transcript[i] <;>
        simp only [hp, hn] <;> norm_num

/-- C4: `compute_object_frequency` returns one entry per distinct label,
counting its occurrences in the whole input; the output is sorted
non-increasing by count with ties broken by first-seen order of the label
in the input; and the counts sum to the number of input detections. -/
theorem compute_object_frequency_spec (detections : List ObjectDetection) :
    ((compute_object_frequency detections).map fun e => e.label).Nodup ∧
    (∀ lab : String,
      (∃ e ∈ compute_object_frequency detections, e.label = lab) ↔
        lab ∈ labelsOf detections) ∧
    (∀ e ∈ compute_object_frequency detections,
      e.count = countOcc (labelsOf detections) e.label) ∧
    (∀ i j : Nat, ∀ hi : i < (compute_object_frequency detections).length,
      ∀ hj : j < (compute_object_frequency detections).length, i < j →
      ((compute_object_frequency detections)[j]).count ≤
        ((compute_object_frequency detections)[i]).count ∧
      (((compute_object_frequency detections)[i]).count =
          ((compute_object_frequency detections)[j]).count →
        firstIdx (labelsOf detections) ((compute_object_frequency detections)[i]).label <
          firstIdx (labelsOf detections) ((compute_object_frequency detections)[j]).label)) ∧
    ((compute_object_frequency detections).map fun e => e.count).sum = detections.length := by
  have hperm := most_common_perm (counterOfList (labelsOf detections))
  have hlabels : ((compute_object_frequency detections).map fun e => e.label) =
      (most_common (counterOfList (labelsOf detections))).map Prod.fst := by
    rw [compute_object_frequency, List.map_map]
    rfl
  refine ⟨?_, ?_, ?_, ?_, ?_⟩
  · rw [hlabels]
    refine (List.Perm.nodup_iff (hperm.map Prod.fst)).mpr ?_
    rw [counterOfList_keys]
    exact firstDedup_nodup _
  · intro lab
    have h2 : lab ∈ (compute_object_frequency detections).map (fun e => e.label) ↔
        lab ∈ labelsOf detections := by
      rw [hlabels, (hperm.map Prod.fst).mem_iff, counterOfList_keys]
      exact mem_firstDedup
    constructor
    · rintro ⟨e, he, rfl⟩
      exact h2.mp (List.mem_map.mpr ⟨e, he, rfl⟩)
    · intro h
      rcases List.mem_map.mp (h2.mpr h) with ⟨e, he, hl⟩
      exact ⟨e, he, hl⟩
  · intro e he
    rw [compute_object_frequency] at he
    rcases List.mem_map.mp he with ⟨p, hp, rfl⟩
    have hpC : p ∈ counterOfList (labelsOf detections) := hperm.mem_iff.mp hp
    rw [counterOfList] at hpC
    rcases List.mem_map.mp hpC with ⟨k, _, rfl⟩
    rfl
  · have hC : (counterOfList (labelsOf detections)).Pairwise fun p q =>
        firstIdx (labelsOf detections) p.1 < firstIdx (labelsOf detections) q.1 := by
      rw [counterOfList]
      exact List.pairwise_map.mpr ((firstDedup_pairwise _).imp fun h => h)
    have hout : (compute_object_frequency detections).Pairwise fun e f =>
        f.count ≤ e.count ∧ (e.count = f.count →
          firstIdx (labelsOf detections) e.label < firstIdx (labelsOf detections) f.label) := by
      rw [compute_object_frequency]
      refine List.pairwise_map.mpr ((most_common_pairwise hC).imp ?_)
      rintro p q ⟨h1, h2⟩
      exact ⟨h1, h2⟩
    intro i j hi hj hij
    exact List.pairwise_iff_getElem.mp hout i j hi hj hij
  · have hcounts : ((compute_object_frequency detections).map fun e => e.count) =
        (most_common (counterOfList (labelsOf detections))).map fun p => p.2 := by
      rw [compute_object_frequency, List.map_map]
      rfl
    rw [hcounts, List.Perm.sum_eq (hperm.map fun p => p.2)]
    rw [counterOfList, List.map_map]
    rw [show ((fun p : String × Nat => p.2) ∘ fun k => (k, (labelsOf detections).count k)) =
      fun k => (labelsOf detections).count k from rfl]
    rw [sum_count_firstDedup]
    rw [labelsOf, List.length_map]

/-- C5: every entry `compute_co_occurrence` emits consists of exactly two
distinct labels in lexicographic order; its count is the number of
timeline entries in which both labels appear with positive count; and the
output is sorted descending by count with ties in first-seen pair order. -/
theorem compute_co_occurrence_spec (timeline : List TimelineEntry) :
    (∀ e ∈ compute_co_occurrence timeline, ∃ a b : String,
       e.labels = [a, b] ∧ a < b ∧
       e.count = timeline.countP fun entry => hasPositive entry a && hasPositive entry b) ∧
    (∀ i j : Nat, ∀ hi : i < (compute_co_occurrence timeline).length,
      ∀ hj : j < (compute_co_occurrence timeline).length, i < j →
      ((compute_co_occurrence timeline)[j]).count ≤
        ((compute_co_occurrence timeline)[i]).count ∧
      (((compute_co_occurrence timeline)[i]).count =
          ((compute_co_occurrence timeline)[j]).count →
        firstIdx (pairStream timeline) (pairKey ((compute_co_occurrence timeline)[i])) <
          firstIdx (pairStream timeline) (pairKey ((compute_co_occurrence timeline)[j])))) := by
  have hperm := most_common_perm (counterOfList (pairStream timeline))
  constructor
  · intro e he
    rw [compute_co_occurrence] at he
    rcases List.mem_map.mp he with ⟨p, hp, rfl⟩
    have hpC := hperm.mem_iff.mp hp
    rw [counterOfList] at hpC
    rcases List.mem_map.mp hpC with ⟨k, hk, rfl⟩
    have hkP : k ∈ pairStream timeline := mem_firstDedup.mp hk
    rcases mem_pairStream.mp hkP with ⟨entry, _hentry, hkpairs⟩
    obtain ⟨a, b⟩ := k
    have hab : a < b := entryPairs_lt hkpairs
    exact ⟨a, b, rfl, hab, count_pairStream hab timeline⟩
  · have hC : (counterOfList (pairStream timeline)).Pairwise fun p q =>
        firstIdx (pairStream timeline) p.1 < firstIdx (pairStream timeline) q.1 := by
      rw [counterOfList]
      exact List.pairwise_map.mpr ((firstDedup_pairwise _).imp fun h => h)
    have hout : (compute_co_occurrence timeline).Pairwise fun e f =>
        f.count ≤ e.count ∧ (e.count = f.count →
          firstIdx (pairStream timeline) (pairKey e) <
            firstIdx (pairStream timeline) (pairKey f)) := by
      rw [compute_co_occurrence]
      refine List.pairwise_map.mpr ((most_common_pairwise hC).imp ?_)
      rintro p q ⟨h1, h2⟩
      exact ⟨h1, fun heq => h2 heq⟩
    intro i j hi hj hij
    exact List.pairwise_iff_getElem.mp hout i j hi hj hij

/-- C1 (counterexample): on a store with no such job, `process` raises the
line-75 `ValueError` past its own boundary instead of returning normally —
the store-lookup miss at lines 73-75 sits before the `try` block. -/
theorem process_missing_job_raises :
    process okComponents 4 "j1" emptyState = Except.error "Job j1 not found" := rfl

/-- C1 (amended): whenever the job id is found in the store, `process`
returns normally for every choice of stage components: every exception
arising inside the pipeline stages is caught by the `try`/`except` of
lines 80-101. Only the store-lookup miss before the `try` block raises. -/
theorem process_returns_normally_when_job_found (c : PipelineComponents) (w : ℚ)
    (jobId : String) (s : SysState) (job : Job)
    (h : storeGet s jobId = some job) :
    ∃ s2, process c w jobId s = Except.ok s2 := by
  refine ⟨finishJob c w jobId (markProcessing jobId s), ?_⟩
  unfold process
  rw [h]

/-- C1 witness. -/
theorem process_returns_normally_witness :
    storeGet statePending "j1" = some (jobPending "j1") ∧
    ∃ s2, process okComponents 4 "j1" statePending = Except.ok s2 :=
  ⟨rfl, process_returns_normally_when_job_found okComponents 4 "j1" statePending
    (jobPending "j1") rfl⟩

/-- C9 (counterexample): two calls with identical transcript, detections
and window but different `timeline` arguments return different bundles,
so the bundle does not depend on those three inputs alone. -/
theorem bundle_depends_on_timeline_argument :
    build_analytics_bundle Tmin D2 4 (some [oddTimelineEntry]) ≠
      build_analytics_bundle Tmin D2 4 (some [oddTimelineEntry2]) := by
  decide

/-- C9 (amended): `build_analytics_bundle` is deterministic and pure in
its four arguments — identical transcript, detections, window and
timeline argument yield identical bundles. -/
theorem build_analytics_bundle_deterministic
    (t1 t2 : List TranscriptSegment) (d1 d2 : List ObjectDetection)
    (w1 w2 : ℚ) (tl1 tl2 : Option (List TimelineEntry))
    (ht : t1 = t2) (hd : d1 = d2) (hw : w1 = w2) (htl : tl1 = tl2) :
    build_analytics_bundle t1 d1 w1 tl1 = build_analytics_bundle t2 d2 w2 tl2 := by
  rw [ht, hd, hw, htl]

/-- C9 witness. -/
theorem build_analytics_bundle_deterministic_witness :
    Tmin = Tmin ∧
    build_analytics_bundle Tmin D2 4 none = build_analytics_bundle Tmin D2 4 none :=
  ⟨rfl, build_analytics_bundle_deterministic Tmin Tmin D2 D2 4 4 none none
    rfl rfl rfl rfl⟩

/-- The timeline `build_timeline` merges from `Tmin` and `D2` at window 4,
evaluated by hand (the rational window bounds are settled by `norm_num`). -/
theorem build_timeline_Tmin_D2 :
    build_timeline Tmin D2 4 =
      [{ timestamp := 0, transcript := some "hi", objects := [("cat", 1), ("dog", 1)] }] := by
  have hc : (decide ((0:ℚ) - 4 / 2 ≤ (1:ℚ)) && decide ((1:ℚ) ≤ (2:ℚ) + 4 / 2)) = true := by
    rw [decide_eq_true (show (0:ℚ) - 4 / 2 ≤ (1:ℚ) by norm_num),
        decide_eq_true (show (1:ℚ) ≤ (2:ℚ) + 4 / 2 by norm_num)]
    rfl
  have hfil : D2.filter (fun detection =>
      decide ((0:ℚ) - 4 / 2 ≤ detection.timestamp) &&
      decide (detection.timestamp ≤ (2:ℚ) + 4 / 2)) = D2 := by
    refine List.filter_eq_self.mpr ?_
    intro a ha
    simp only [D2, List.mem_cons, List.not_mem_nil, or_false] at ha
    rcases ha with rfl | rfl
    · exact hc
    · exact hc
  rw [build_timeline]
  rw [show Tmin = [{ start := 0, stop := 2, text := "hi" }] from rfl]
  rw [List.map_cons, List.map_nil]
  congr 1
  show ({
      timestamp := (0:ℚ)
      transcript := some "hi"
      objects := counterOfList ((D2.filter fun detection =>
        decide ((0:ℚ) - 4 / 2 ≤ detection.timestamp) &&
        decide (detection.timestamp ≤ (2:ℚ) + 4 / 2)).map fun det => det.label) } :
      TimelineEntry) = _
  rw [hfil]
  decide

/-- C10 (counterexample): a supplied *empty* timeline is falsy in
`timeline = timeline or build_timeline(...)`, so it is discarded and the
timeline is recomputed: the returned co-occurrence differs from
`compute_co_occurrence` applied to the supplied (empty) timeline. -/
theorem bundle_recomputes_empty_timeline :
    (build_analytics_bundle Tmin D2 4 (some [])).co_occurrence ≠
      compute_co_occurrence [] := by
  have h : (build_analytics_bundle Tmin D2 4 (some [])).co_occurrence =
      compute_co_occurrence (build_timeline Tmin D2 4) := rfl
  rw [h, build_timeline_Tmin_D2]
  decide

/-- C10 (amended): for every *non-empty* supplied timeline,
`build_analytics_bundle` uses it without recomputation: co-occurrence
comes from the supplied timeline while object frequency and sentiment
come from the detections and transcript. -/
theorem bundle_uses_nonempty_supplied_timeline (transcript : List TranscriptSegment)
    (detections : List ObjectDetection) (w : ℚ) (tl : List TimelineEntry)
    (h : tl ≠ []) :
    build_analytics_bundle transcript detections w (some tl) =
      { object_frequency := compute_object_frequency detections
        co_occurrence := compute_co_occurrence tl
        sentiment_trend := compute_sentiment transcript } := by
  unfold build_analytics_bundle
  show ({
      object_frequency := compute_object_frequency detections
      co_occurrence := compute_co_occurrence
        (if tl = [] then build_timeline transcript detections w else tl)
      sentiment_trend := compute_sentiment transcript } : AnalyticsBundle) = _
  rw [if_neg h]

/-- C10 witness. -/
theorem bundle_uses_nonempty_supplied_timeline_witness :
    ([oddTimelineEntry] ≠ ([] : List TimelineEntry)) ∧
    build_analytics_bundle Tmin D2 4 (some [oddTimelineEntry]) =
      { object_frequency := compute_object_frequency D2
        co_occurrence := compute_co_occurrence [oddTimelineEntry]
        sentiment_trend := compute_sentiment Tmin } :=
  ⟨List.cons_ne_nil _ _, bundle_uses_nonempty_supplied_timeline Tmin D2 4
    [oddTimelineEntry] (List.cons_ne_nil _ _)⟩

/-- C3 (counterexample): an exception whose message stringifies to the
empty string (Python `str(exc)` of `ValueError()` is `""`) leaves the
failed job with `error_message` set to the *empty* string, so the
recorded `error_message` is not non-empty as the claim states. -/
theorem process_failed_empty_error_message :
    (finalJob (process (failingComponents "") 4 "j1" statePending) "j1").map
      (fun j => (j.status, j.error_message)) = some (JobStatus.failed, some "") := rfl

/-- C3 (amended): when a stage raises, `process` leaves the job `failed`
with the exception's message recorded verbatim as `error_message` (hence
non-empty exactly when the message is non-empty), appends an error-level
log row, writes no result artifact, and leaves `result_path` unset. -/
theorem process_stage_failure_spec (c : PipelineComponents) (w : ℚ) (jobId : String)
    (s : SysState) (job : Job) (e : String) (s1 : SysState)
    (hget : storeGet s jobId = some job)
    (hrp : job.result_path = none)
    (herr : run_pipeline c w jobId (markProcessing jobId s) = (Except.error e, s1)) :
    ∃ s2 jobFin, process c w jobId s = Except.ok s2 ∧
      storeGet s2 jobId = some jobFin ∧
      jobFin.status = JobStatus.failed ∧
      jobFin.error_message = some e ∧
      (e ≠ "" → jobFin.error_message ≠ some "") ∧
      (∃ entry ∈ s2.logs, entry.job_id = jobId ∧ entry.level = "ERROR") ∧
      s2.files = s.files ∧
      jobFin.result_path = none := by
  have hproc : process c w jobId s =
      Except.ok (finishJob c w jobId (markProcessing jobId s)) := by
    unfold process
    rw [hget]
  have hfin := finishJob_error c w jobId (markProcessing jobId s) e s1 herr
  refine ⟨finishJob c w jobId (markProcessing jobId s),
    { job with
      status := JobStatus.failed, error_message := some e, updated_at := s1.now },
    hproc, ?_, rfl, rfl, ?_, ?_, ?_, ?_⟩
  · rw [hfin, storeGet_add_job_log, storeGet_storeUpdate,
      storeGet_of_jobs_eq (run_pipeline_snd_jobs herr) jobId,
      storeGet_markProcessing, hget]
    rfl
  · intro hne hsome
    injection hsome with hsome
    exact hne hsome
  · rw [hfin, add_job_log_logs]
    exact ⟨_, List.mem_append_right _ (List.mem_singleton_self _), rfl, rfl⟩
  · rw [hfin, add_job_log_files, storeUpdate_files,
      run_pipeline_snd_files herr, markProcessing_files]
  · exact hrp

/-- C3 witness. -/
theorem process_stage_failure_witness :
    storeGet statePending "j1" = some (jobPending "j1") ∧
    (jobPending "j1").result_path = none ∧
    run_pipeline (failingComponents "boom") 4 "j1" (markProcessing "j1" statePending) =
      (Except.error "boom",
        add_job_log "j1" "Extracting audio track" "INFO" (markProcessing "j1" statePending)) ∧
    (∃ s2 jobFin,
      process (failingComponents "boom") 4 "j1" statePending = Except.ok s2 ∧
      storeGet s2 "j1" = some jobFin ∧
      jobFin.status = JobStatus.failed ∧
      jobFin.error_message = some "boom" ∧
      ("boom" ≠ "" → jobFin.error_message ≠ some "") ∧
      (∃ entry ∈ s2.logs, entry.job_id = "j1" ∧ entry.level = "ERROR") ∧
      s2.files = statePending.files ∧
      jobFin.result_path = none) :=
  ⟨rfl, rfl, rfl,
    process_stage_failure_spec (failingComponents "boom") 4 "j1" statePending
      (jobPending "j1") "boom"
      (add_job_log "j1" "Extracting audio track" "INFO" (markProcessing "j1" statePending))
      rfl rfl rfl⟩

/-- C7 (counterexample): `process` re-invoked on an already-`completed`
job is unguarded (pipeline.py line 76 sets `processing` unconditionally);
with a failing stage the job ends `failed`, so a further status transition
is observable after a terminal state. -/
theorem process_terminal_job_retransitions :
    (finalJob (process (failingComponents "boom") 4 "j1" stateCompleted) "j1").map
      Job.status = some JobStatus.failed := rfl

/-- C7 (amended): within one `process` invocation on a job found in
`pending` state, the status moves monotonically
`pending → processing → {completed | failed}` and the call returns
normally; re-invocation on a terminal job is unguarded in the source. -/
theorem process_status_monotonic (c : PipelineComponents) (w : ℚ) (jobId : String)
    (s : SysState) (job : Job)
    (hget : storeGet s jobId = some job) (hp : job.status = JobStatus.pending) :
    job.status = JobStatus.pending ∧
    ∃ jobMid jobFin,
      storeGet (markProcessing jobId s) jobId = some jobMid ∧
      jobMid.status = JobStatus.processing ∧
      storeGet (finishJob c w jobId (markProcessing jobId s)) jobId = some jobFin ∧
      (jobFin.status = JobStatus.completed ∨ jobFin.status = JobStatus.failed) ∧
      process c w jobId s = Except.ok (finishJob c w jobId (markProcessing jobId s)) := by
  have hproc : process c w jobId s =
      Except.ok (finishJob c w jobId (markProcessing jobId s)) := by
    unfold process
    rw [hget]
  have hmid : storeGet (markProcessing jobId s) jobId =
      some { job with status := JobStatus.processing, updated_at := s.now } := by
    rw [storeGet_markProcessing, hget]
    rfl
  refine ⟨hp, ?_⟩
  rcases storeGet_finishJob c w jobId s job hget with ⟨s1, result, _, hfin⟩ | ⟨s1, e, _, hfin⟩
  · exact ⟨_, _, hmid, rfl, hfin, Or.inl rfl, hproc⟩
  · exact ⟨_, _, hmid, rfl, hfin, Or.inr rfl, hproc⟩

/-- C7 witness. -/
theorem process_status_monotonic_witness :
    storeGet statePending "j1" = some (jobPending "j1") ∧
    (jobPending "j1").status = JobStatus.pending ∧
    ((jobPending "j1").status = JobStatus.pending ∧
     ∃ jobMid jobFin,
      storeGet (markProcessing "j1" statePending) "j1" = some jobMid ∧
      jobMid.status = JobStatus.processing ∧
      storeGet (finishJob okComponents 4 "j1" (markProcessing "j1" statePending)) "j1" =
        some jobFin ∧
      (jobFin.status = JobStatus.completed ∨ jobFin.status = JobStatus.failed) ∧
      process okComponents 4 "j1" statePending =
        Except.ok (finishJob okComponents 4 "j1" (markProcessing "j1" statePending))) :=
  ⟨rfl, rfl, process_status_monotonic okComponents 4 "j1" statePending
    (jobPending "j1") rfl rfl⟩

/-- C8 (counterexample): re-processing a `failed` job to success leaves
`error_message` set (the success arm never clears it) on a `completed`
job, refuting the iff between `error_message` and `failed`. -/
theorem process_error_message_persists :
    (finalJob (process okComponents 4 "j1" stateFailed) "j1").map
      (fun j => (j.status, j.error_message)) =
      some (JobStatus.completed, some "previous failure") := rfl

/-- C8 (amended): along the documented lifecycle — `create_job` followed
by a single `process` of the freshly created job — the invariant
"`result_path` set iff `completed` and `error_message` set iff `failed`"
holds for the job row after each operation (and also at the intermediate
`processing` mark). -/
theorem job_field_invariant (c : PipelineComponents) (w : ℚ) (it : JobInputType)
    (src jobId : String) (s s' : SysState) (job : Job)
    (hget : storeGet s' jobId = some job)
    (hp : job.status = JobStatus.pending) (he : job.error_message = none)
    (hr : job.result_path = none) :
    jobInvariant (create_job it src jobId s).1 ∧
    (∀ jobMid, storeGet (markProcessing jobId s') jobId = some jobMid →
      jobInvariant jobMid) ∧
    (∀ jobFin, storeGet (finishJob c w jobId (markProcessing jobId s')) jobId =
      some jobFin → jobInvariant jobFin) := by
  refine ⟨?_, ?_, ?_⟩
  · simp [create_job, jobInvariant]
  · intro jobMid hmid
    rw [storeGet_markProcessing, hget, Option.map_some'] at hmid
    injection hmid with hmid
    rw [← hmid]
    simp [jobInvariant, he, hr]
  · intro jobFin hfin
    rcases storeGet_finishJob c w jobId s' job hget with ⟨s1, result, _, hfin2⟩ | ⟨s1, e, _, hfin2⟩
    · rw [hfin2] at hfin
      injection hfin with hfin
      rw [← hfin]
      simp [jobInvariant, he]
    · rw [hfin2] at hfin
      injection hfin with hfin
      rw [← hfin]
      simp [jobInvariant, hr]

/-- C8 witness. -/
theorem job_field_invariant_witness :
    storeGet statePending "j1" = some (jobPending "j1") ∧
    (jobPending "j1").status = JobStatus.pending ∧
    (jobPending "j1").error_message = none ∧
    (jobPending "j1").result_path = none ∧
    (jobInvariant (create_job JobInputType.upload "uploads/video.mp4" "j1" emptyState).1 ∧
     (∀ jobMid, storeGet (markProcessing "j1" statePending) "j1" = some jobMid →
       jobInvariant jobMid) ∧
     (∀ jobFin, storeGet (finishJob okComponents 4 "j1" (markProcessing "j1" statePending))
       "j1" = some jobFin → jobInvariant jobFin)) :=
  ⟨rfl, rfl, rfl, rfl,
    job_field_invariant okComponents 4 JobInputType.upload "uploads/video.mp4" "j1"
      emptyState statePending (jobPending "j1") rfl rfl rfl rfl⟩

/-- C2 witness. -/
theorem build_timeline_spec_witness :
    0 < T0.length ∧
    (∃ (segment : TranscriptSegment) (entry : TimelineEntry), T0[0]? = some segment ∧
      (build_timeline T0 D0 4)[0]? = some entry ∧
      entry.timestamp = segment.start ∧
      entry.transcript = some segment.text ∧
      (∀ lab : String, lookupCount entry.objects lab =
        (D0.filter fun det =>
          (decide (segment.start - 4 / 2 ≤ det.timestamp) &&
            decide (det.timestamp ≤ segment.stop + 4 / 2)) &&
          (det.label == lab)).length) ∧
      ((D0.filter fun det =>
          decide (segment.start - 4 / 2 ≤ det.timestamp) &&
          decide (det.timestamp ≤ segment.stop + 4 / 2)) = [] →
        entry.objects = [])) :=
  ⟨by decide, (build_timeline_spec T0 D0 4).2 0 (by decide)⟩

/-- C6 witness. -/
theorem compute_sentiment_spec_witness :
    0 < T0.length ∧
    (∃ (segment : TranscriptSegment) (point : SentimentPoint), T0[0]? = some segment ∧
      (compute_sentiment T0)[0]? = some point ∧
      point.timestamp = segment.start ∧
      (matchesPositive segment = true → matchesNegative segment = false →
        point.sentiment = 6/10) ∧
      (matchesNegative segment = true → matchesPositive segment = false →
        point.sentiment = -(6/10)) ∧
      (matchesPositive segment = matchesNegative segment → point.sentiment = 0) ∧
      (point.sentiment = 6/10 ∨ point.sentiment = 0 ∨ point.sentiment = -(6/10))) :=
  ⟨by decide, (compute_sentiment_spec T0).2 0 (by decide)⟩

/-- C4 witness. -/
theorem compute_object_frequency_spec_witness :
    ({ label := "cat", count := 1 } : ObjectFrequency) ∈ compute_object_frequency D2 ∧
    ({ label := "cat", count := 1 } : ObjectFrequency).count =
      countOcc (labelsOf D2) ({ label := "cat", count := 1 } : ObjectFrequency).label ∧
    (0 : Nat) < 1 ∧
    (((compute_object_frequency D2).get ⟨1, by decide⟩).count ≤
      ((compute_object_frequency D2).get ⟨0, by decide⟩).count ∧
      (((compute_object_frequency D2).get ⟨0, by decide⟩).count =
          ((compute_object_frequency D2).get ⟨1, by decide⟩).count →
        firstIdx (labelsOf D2) ((compute_object_frequency D2).get ⟨0, by decide⟩).label <
          firstIdx (labelsOf D2) ((compute_object_frequency D2).get ⟨1, by decide⟩).label)) ∧
    ((compute_object_frequency D2).map fun e => e.count).sum = D2.length := by
  have h := compute_object_frequency_spec D2
  exact ⟨by decide, h.2.2.1 { label := "cat", count := 1 } (by decide), by decide,
    h.2.2.2.1 0 1 (by decide) (by decide) (by decide), h.2.2.2.2⟩

/-- C5 witness. -/
theorem compute_co_occurrence_spec_witness :
    ({ labels := ["ant", "bee"], count := 2 } : CoOccurrenceEntry) ∈
      compute_co_occurrence TL2 ∧
    (∃ a b : String,
      ({ labels := ["ant", "bee"], count := 2 } : CoOccurrenceEntry).labels = [a, b] ∧
      a < b ∧
      ({ labels := ["ant", "bee"], count := 2 } : CoOccurrenceEntry).count =
        TL2.countP fun entry => hasPositive entry a && hasPositive entry b) ∧
    (1 : Nat) < 2 ∧
    (((compute_co_occurrence TL2).get ⟨2, by decide⟩).count ≤
      ((compute_co_occurrence TL2).get ⟨1, by decide⟩).count ∧
     (((compute_co_occurrence TL2).get ⟨1, by decide⟩).count =
        ((compute_co_occurrence TL2).get ⟨2, by decide⟩).count →
      firstIdx (pairStream TL2) (pairKey ((compute_co_occurrence TL2).get ⟨1, by decide⟩)) <
        firstIdx (pairStream TL2) (pairKey ((compute_co_occurrence TL2).get ⟨2, by decide⟩)))) := by
  have h := compute_co_occurrence_spec TL2
  exact ⟨by decide, h.1 _ (by decide), by decide,
    h.2 1 2 (by decide) (by decide) (by decide)⟩

end VIA
